import Mathlib

/-!
Verification of the streaming-session layer of this repository.

Server side: the two SSE handlers of `src/api/server/routes/logs.js`
(`GET /conversations` and `GET /conversations/:conversationId/messages`)
are embedded as trace-producing functions over explicit backlog data and
live change events.  Client side: the explicit-stop effect, the
background-stream registry and the error listener of
`src/client/src/hooks/SSE/useSSE.ts` (and the variant hook shipped in the
repository) are embedded as state-transition functions.

Identifiers are opaque; we model them as naturals.  Timestamps are
integers.  Machine integers do not overflow in any code modelled here, so
plain `Nat`/`Int` are faithful.
-/

namespace LogsSSE

/-- Delivery classes of §3 of the specification. -/
inductive RecordClass where
  | historical
  | realtime
  | update
  | heartbeat
  | control
  | error
  deriving DecidableEq, Repr

/-- A record written to the SSE response stream by either server handler.
Each constructor corresponds to one `res.write` site in
`src/api/server/routes/logs.js`. -/
inductive SRecord where
  /-- the `type: 'init'` control record (carries total and count) -/
  | initRec (total count : Nat)
  /-- `event: 'historical_conversation'` (carries conversation id and updatedAt) -/
  | historicalConversation (cid : Nat) (updatedAt : Int)
  /-- `event: 'historical_message'` (carries message id and createdAt) -/
  | historicalMessage (mid : Nat) (createdAt : Int)
  /-- the `type: 'historical_complete'` control record -/
  | historicalComplete
  /-- the `type: 'heartbeat'` record -/
  | heartbeat
  /-- `event: 'conversation_update'` (tokens or title update for a conversation) -/
  | conversationUpdate (cid : Nat)
  /-- `event: 'realtime_conversation'` -/
  | realtimeConversation (cid : Nat)
  /-- `event: 'realtime_message'` -/
  | realtimeMessage (mid : Nat)
  /-- an `event: error` record -/
  | errorRecord (msg : String)
  /-- an `event: warning` record (no write site in the source produces one;
  present so that statements about warnings are non-vacuous) -/
  | warningRecord (msg : String)
  deriving DecidableEq, Repr

/-- Delivery class of each emitted record, per the taxonomy of §3/§6. -/
def classOf : SRecord → RecordClass
  | .initRec _ _ => .control
  | .historicalConversation _ _ => .historical
  | .historicalMessage _ _ => .historical
  | .historicalComplete => .control
  | .heartbeat => .heartbeat
  | .conversationUpdate _ => .update
  | .realtimeConversation _ => .realtime
  | .realtimeMessage _ => .realtime
  | .errorRecord _ => .error
  | .warningRecord _ => .control

/-- One firing of a handler attached in the live phase of the
`GET /conversations` session: a message-insert change event, a
conversation-title change event, or a heartbeat-interval tick.
The booleans record facts about the event that the handler tests:
`isInsert` (`change.operationType === 'insert'`), the optional
conversation id of the full document, `summaryFound` (the per-event
aggregation returned a summary) and `passesFilter` (the per-event re-check
of the session's search filter succeeded, or no search term is set). -/
inductive ConvLiveItem where
  | msgInsert (isInsert : Bool) (cid : Option Nat) (summaryFound : Bool) (passesFilter : Bool)
  | titleUpdate (titleChanged : Bool) (cid : Option Nat) (passesFilter : Bool)
  | hbTick
  deriving DecidableEq, Repr

/-- The `changeStream.on('change')`, `convoChangeStream.on('change')` and
heartbeat-interval bodies of the `GET /conversations` handler
(`src/api/server/routes/logs.js`).  Given the Processed-ID Set
(`processedConversationIds`) it returns the updated set and the records
written.  For a message insert that is found and passes the filter, the
`conversation_update` record is written unconditionally; the
`realtime_conversation` record is written only when the conversation id
is not yet in the set, in which case the id is added first. -/
def convLiveStep (processed : List Nat) : ConvLiveItem → List Nat × List SRecord
  | .msgInsert isInsert cid summaryFound passesFilter =>
    if !isInsert then (processed, [])
    else match cid with
      | none => (processed, [])
      | some c =>
        if !summaryFound then (processed, [])
        else if !passesFilter then (processed, [])
        else if c ∈ processed then (processed, [.conversationUpdate c])
        else (c :: processed, [.conversationUpdate c, .realtimeConversation c])
  | .titleUpdate titleChanged cid passesFilter =>
    if !titleChanged then (processed, [])
    else match cid with
      | none => (processed, [])
      | some c =>
        if !passesFilter then (processed, [])
        else (processed, [.conversationUpdate c])
  | .hbTick => (processed, [.heartbeat])

/-- Folds `convLiveStep` over a list of live items, accumulating output. -/
def convLiveRun (processed : List Nat) : List ConvLiveItem → List Nat × List SRecord
  | [] => (processed, [])
  | item :: rest =>
    let s := convLiveStep processed item
    let r := convLiveRun s.1 rest
    (r.1, s.2 ++ r.2)

/-- One firing of a handler attached in the live phase of the
`GET /conversations/:conversationId/messages` session.  `buildOk` records
whether `buildLogData` succeeded for the event (its failure is caught and
nothing is written). -/
inductive MsgLiveItem where
  | msgInsert (isInsert : Bool) (mid : Option Nat) (buildOk : Bool)
  | hbTick
  deriving DecidableEq, Repr

/-- The `changeStream.on('change')` and heartbeat bodies of the
`GET /conversations/:conversationId/messages` handler.  An insert whose
id is already in `processedMessageIds` is dropped entirely; otherwise the
id is recorded first and the `realtime_message` record is written when
`buildLogData` succeeds. -/
def msgLiveStep (processed : List Nat) : MsgLiveItem → List Nat × List SRecord
  | .msgInsert isInsert mid buildOk =>
    if !isInsert then (processed, [])
    else match mid with
      | none => (processed, [])
      | some m =>
        if m ∈ processed then (processed, [])
        else (m :: processed, if buildOk then [.realtimeMessage m] else [])
  | .hbTick => (processed, [.heartbeat])

/-- Folds `msgLiveStep` over a list of live items, accumulating output. -/
def msgLiveRun (processed : List Nat) : List MsgLiveItem → List Nat × List SRecord
  | [] => (processed, [])
  | item :: rest =>
    let s := msgLiveStep processed item
    let r := msgLiveRun s.1 rest
    (r.1, s.2 ++ r.2)

/-- The per-conversation summary produced by the `$group`/`$project`
stages of `buildConversationsAggregation`: only the fields the session
layer inspects are kept (conversation id and the `updatedAt` used by the
`$sort` stage). -/
structure ConvoSummary where
  conversationId : Nat
  updatedAt : Int
  deriving DecidableEq, Repr

/-- A stored message document as read by the messages backlog query
(only the fields the session layer inspects). -/
structure MsgDoc where
  mid : Nat
  createdAt : Int
  deriving DecidableEq, Repr

/-- Inserts `a` into a list sorted descending by key `f`, keeping it
sorted (model of a database sort on one key). -/
def insertDescBy (f : α → Int) (a : α) : List α → List α
  | [] => [a]
  | b :: t => if f b ≤ f a then a :: b :: t else b :: insertDescBy f a t

/-- Sorts a list descending by the key `f`. -/
def sortDescBy (f : α → Int) : List α → List α
  | [] => []
  | a :: t => insertDescBy f a (sortDescBy f t)

/-- Inserts `a` into a list sorted ascending by key `f`. -/
def insertAscBy (f : α → Int) (a : α) : List α → List α
  | [] => [a]
  | b :: t => if f a ≤ f b then a :: b :: t else b :: insertAscBy f a t

/-- Sorts a list ascending by the key `f`. -/
def sortAscBy (f : α → Int) : List α → List α
  | [] => []
  | a :: t => insertAscBy f a (sortAscBy f t)

/-- Ordering behaviour of `buildConversationsAggregation` applied to the
set of matching conversation summaries: the pipeline ends with
`$sort: (updatedAt: -1)`, `$skip: skip`, `$limit: limitNum`
(`src/api/server/routes/logs.js`, lines 103-106). -/
def conversationsAggregationResult (matching : List ConvoSummary) (skip limitNum : Nat) :
    List ConvoSummary :=
  ((sortDescBy (fun c => c.updatedAt) matching).drop skip).take limitNum

/-- Ordering behaviour of the messages backlog query: `Message.find`
sorted by `(createdAt: 1)` (`src/api/server/routes/logs.js`, line 644). -/
def messagesBacklogResult (stored : List MsgDoc) : List MsgDoc :=
  sortAscBy (fun m => m.createdAt) stored

/-- Extracts the heartbeat records that the heartbeat interval keeps
emitting even when no change-stream handlers were attached. -/
def convHeartbeatsOnly : List ConvLiveItem → List SRecord
  | [] => []
  | .hbTick :: rest => SRecord.heartbeat :: convHeartbeatsOnly rest
  | _ :: rest => convHeartbeatsOnly rest

/-- Heartbeat records of the messages session when no change-stream
handlers were attached. -/
def msgHeartbeatsOnly : List MsgLiveItem → List SRecord
  | [] => []
  | .hbTick :: rest => SRecord.heartbeat :: msgHeartbeatsOnly rest
  | _ :: rest => msgHeartbeatsOnly rest

/-- Full emission trace of one `GET /conversations` SSE session
(`src/api/server/routes/logs.js`, lines 451-627), as a function of:
the number of heartbeat-interval ticks that fire while the backlog fetch
is awaited (the interval is started before the fetch), the matching
conversation summaries with the pagination window, whether
`Message.watch`/`Conversation.watch` establish without throwing
(`watchOk`), and the live items delivered afterwards.  On setup failure
the catch block writes one `event: error` record and the session
continues: only the heartbeat interval keeps writing. -/
def conversationsSessionTrace (preHb : Nat) (matching : List ConvoSummary)
    (skip limitNum : Nat) (watchOk : Bool) (live : List ConvLiveItem) : List SRecord :=
  let backlog := conversationsAggregationResult matching skip limitNum
  List.replicate preHb SRecord.heartbeat
    ++ [SRecord.initRec matching.length backlog.length]
    ++ backlog.map (fun c => SRecord.historicalConversation c.conversationId c.updatedAt)
    ++ [SRecord.historicalComplete]
    ++ (if watchOk then
          (convLiveRun (backlog.map (fun c => c.conversationId)) live).2
        else
          SRecord.errorRecord "Error setting up connection" :: convHeartbeatsOnly live)

/-- Full emission trace of one
`GET /conversations/:conversationId/messages` SSE session
(`src/api/server/routes/logs.js`, lines 630-739): `fetchOk` is whether
the backlog query succeeded (its catch writes a count-0 `init` record
and no `historical_complete` marker), `watchOk` whether `Message.watch`
established (its catch only logs a warning server-side and writes
nothing).  The heartbeat interval starts after the backlog phase, and
`processedMessageIds` starts empty. -/
def messagesSessionTrace (stored : List MsgDoc) (fetchOk : Bool)
    (watchOk : Bool) (live : List MsgLiveItem) : List SRecord :=
  (if fetchOk then
      let backlog := messagesBacklogResult stored
      [SRecord.initRec backlog.length backlog.length]
        ++ backlog.map (fun m => SRecord.historicalMessage m.mid m.createdAt)
        ++ [SRecord.historicalComplete]
    else
      [SRecord.initRec 0 0])
    ++ (if watchOk then (msgLiveRun [] live).2 else msgHeartbeatsOnly live)

/-- Timestamps of the historical records of a trace, in emission order. -/
def historicalTimestamps (t : List SRecord) : List Int :=
  t.filterMap fun r =>
    match r with
    | .historicalConversation _ ts => some ts
    | .historicalMessage _ ts => some ts
    | _ => none

/-- Every record that follows an occurrence of the `historical_complete`
marker in the trace has its class in `allowed`. -/
def afterMarkerAllowed (t : List SRecord) (allowed : List RecordClass) : Prop :=
  ∀ pre post, t = pre ++ SRecord.historicalComplete :: post →
    ∀ r ∈ post, classOf r ∈ allowed

/-- Recognizer for `event: error` records. -/
def isErrorRec : SRecord → Bool
  | .errorRecord _ => true
  | _ => false

/-- Recognizer for `event: warning` records. -/
def isWarningRec : SRecord → Bool
  | .warningRecord _ => true
  | _ => false

/-- Lifecycle phase of a server SSE session.  The source has no explicit
phase variable; `closed` models the point where `res.end()` has been
called. -/
inductive SessPhase where
  | live
  | closed
  deriving DecidableEq, Repr

/-- Resource/lifetime state of one server SSE session: current phase,
whether the heartbeat interval is still scheduled, whether the change
streams are still open, and wall-clock milliseconds since the session
started (tracked by the model only; no code in either handler reads it). -/
structure ServerSession where
  phase : SessPhase
  heartbeatActive : Bool
  streamsOpen : Bool
  elapsedMs : Nat
  deriving DecidableEq, Repr

/-- State just after the preamble of either SSE handler: live, heartbeat
interval scheduled, change streams open. -/
def serverSessionStart : ServerSession :=
  { phase := .live, heartbeatActive := true, streamsOpen := true, elapsedMs := 0 }

/-- Events a server SSE session can experience over time. -/
inductive SessEvent where
  /-- `ms` milliseconds of wall-clock time pass -/
  | timePasses (ms : Nat)
  /-- the heartbeat interval fires -/
  | hbFire
  /-- a live change event arrives and is handled -/
  | liveChange
  /-- the client disconnects (`req.on('close')` fires) -/
  | clientDisconnect
  deriving DecidableEq, Repr

/-- Lifetime transition function of both SSE handlers in
`src/api/server/routes/logs.js`.  The only registered teardown is the
`req.on('close')` callback (lines 619-626 and 732-738), which closes the
change streams, clears the heartbeat interval and calls `res.end()`;
neither handler registers any timer keyed to elapsed session time, so
the passage of time, heartbeat firings and live changes leave the phase
unchanged. -/
def sessStep (s : ServerSession) : SessEvent → ServerSession
  | .timePasses ms => { s with elapsedMs := s.elapsedMs + ms }
  | .hbFire => s
  | .liveChange => s
  | .clientDisconnect =>
    { s with phase := .closed, heartbeatActive := false, streamsOpen := false }

/-- Runs a server session through a list of events. -/
def sessRun (s : ServerSession) : List SessEvent → ServerSession
  | [] => s
  | e :: rest => sessRun (sessStep s e) rest

/-- A primitive JSON value, enough to state record shapes. -/
inductive JVal where
  | jstr (s : String)
  | jnum (n : Int)
  deriving DecidableEq, Repr

/-- The object serialized by the heartbeat interval of the
`GET /conversations` handler (`src/api/server/routes/logs.js`, line 462):
the literal passed to `JSON.stringify` is exactly `(type: 'heartbeat')`. -/
def conversationsHeartbeatPayload : List (String × JVal) :=
  [("type", JVal.jstr "heartbeat")]

/-- The object serialized by the heartbeat interval of the
`GET /conversations/:conversationId/messages` handler
(`src/api/server/routes/logs.js`, line 695). -/
def messagesHeartbeatPayload : List (String × JVal) :=
  [("type", JVal.jstr "heartbeat")]

/-- A JavaScript number as it arises in `fetchConversations`: an integer,
or NaN — the result of `parseInt` on a string that does not start with a
digit. -/
inductive JSNum where
  | int (v : Int)
  | nan
  deriving DecidableEq, Repr

/-- `Math.max` on two such numbers: NaN if either argument is NaN. -/
def jsMax : JSNum → JSNum → JSNum
  | .int a, .int b => .int (max a b)
  | _, _ => .nan

/-- `Math.min` on two such numbers: NaN if either argument is NaN. -/
def jsMin : JSNum → JSNum → JSNum
  | .int a, .int b => .int (min a b)
  | _, _ => .nan

/-- Subtraction, propagating NaN. -/
def jsSub : JSNum → JSNum → JSNum
  | .int a, .int b => .int (a - b)
  | _, _ => .nan

/-- Multiplication, propagating NaN (no operand here is ever Infinity or
a signed zero, so integer multiplication plus NaN propagation is exact). -/
def jsMul : JSNum → JSNum → JSNum
  | .int a, .int b => .int (a * b)
  | _, _ => .nan

/-- The `<` comparison: false whenever either side is NaN. -/
def jsLt : JSNum → JSNum → Bool
  | .int a, .int b => a < b
  | _, _ => false

/-- `Math.ceil(t / l)` for the nonnegative integer numerator `totalCount`:
a NaN divisor gives NaN, and a positive integer divisor gives ceiling
division.  Every non-NaN divisor reaching this call in the source is at
least 1 (see `limitNum_ge_one_or_nan`), so the non-positive integer
branch is unreachable and is mapped to NaN as well. -/
def jsCeilDiv (t : Nat) : JSNum → JSNum
  | .int l => if 0 < l then .int (((t : Int) + l - 1) / l) else .nan
  | .nan => .nan

/-- Pagination object returned by `fetchConversations`. -/
structure Pagination where
  currentPage : JSNum
  totalPages : JSNum
  totalCount : Nat
  hasNext : Bool
  hasPrev : Bool
  deriving DecidableEq, Repr

/-- Effective values computed by one call to `fetchConversations`. -/
structure FetchWindow where
  pageNum : JSNum
  limitQ : JSNum
  skip : JSNum
  limitNum : JSNum
  pagination : Pagination
  deriving DecidableEq, Repr

/-- Effective query window and pagination computed by `fetchConversations`
(`src/api/server/routes/logs.js`, lines 110-200).  `page?`/`limit?` model
`parseInt(query.page ?? 1, 10)` and `parseInt(query.limit ?? 10, 10)`:
`none` is an absent parameter (the `?? 1`/`?? 10` default then parses to
1/10), `some (.int v)` a parameter whose string parses to `v`, and
`some .nan` a non-numeric string, on which `parseInt` returns NaN and
`Math.max`/`Math.min`/`Math.ceil` propagate it. -/
def fetchConversationsWindow (page? limit? : Option JSNum) (all : Bool) (totalCount : Nat) :
    FetchWindow :=
  let pageNum := jsMax (page?.getD (JSNum.int 1)) (JSNum.int 1)
  let limitQ := jsMin (jsMax (limit?.getD (JSNum.int 10)) (JSNum.int 1)) (JSNum.int 100)
  let skip := if all then JSNum.int 0 else jsMul (jsSub pageNum (JSNum.int 1)) limitQ
  let limitNum := if all then jsMax (JSNum.int totalCount) (JSNum.int 1) else limitQ
  let totalPages := jsMax (JSNum.int 1) (jsCeilDiv totalCount limitNum)
  { pageNum := pageNum
    limitQ := limitQ
    skip := skip
    limitNum := limitNum
    pagination :=
      { currentPage := jsMin pageNum totalPages
        totalPages := totalPages
        totalCount := totalCount
        hasNext := jsLt pageNum totalPages
        hasPrev := jsLt (JSNum.int 1) pageNum } }

end LogsSSE

namespace ClientSSE

/-- Client-side state observed by the explicit-stop effects of the two
`useSSE` hooks: the ready state of the transport opened for the current
submission (0 connecting, 1 open, 2 closed), whether the `activeSSE`
state variable still references it, whether the hook reports a
submission in flight, and how many remote-abort requests
(`abortConversation`) have been issued. -/
structure StopState where
  connReadyState : Nat
  activeSSERef : Bool
  isSubmitting : Bool
  abortsSent : Nat
  deriving DecidableEq, Repr

/-- The explicit-stop effect of `src/client/src/hooks/SSE/useSSE.ts`
(lines 100-107): when the submission has become null while `activeSSE`
is set, it only calls `setIsSubmitting(false)`; the comment in the
source states the transport is deliberately not closed so background
streaming continues, and no abort request is issued. -/
def explicitStopEffect (submissionIsNull : Bool) (s : StopState) : StopState :=
  if submissionIsNull && s.activeSSERef then { s with isSubmitting := false } else s

/-- The explicit-stop effect of the variant hook `src/unnamed/part_003`
(lines 96-119): when the submission has become null while `activeSSE` is
set, it closes the transport if it is open (`readyState === 1`), calls
`abortConversation` when a user message is found in the current
messages, and clears `activeSSE`. -/
def explicitStopEffectVariant (submissionIsNull hasUserMessage : Bool) (s : StopState) :
    StopState :=
  if submissionIsNull && s.activeSSERef then
    { s with
      connReadyState := if s.connReadyState = 1 then 2 else s.connReadyState
      abortsSent := s.abortsSent + (if hasUserMessage then 1 else 0)
      activeSSERef := false }
  else s

/-- A transport connection tracked by the process-wide registry
(`globalSSEMap` in `src/client/src/hooks/SSE/useSSE.ts`).  `readyState`:
0 connecting, 1 open, 2 closed; `tag` distinguishes connection
instances. -/
structure Conn where
  readyState : Nat
  tag : Nat
  deriving DecidableEq, Repr

/-- The process-wide registry keyed by conversation id, as an
association list. -/
def Registry := List (String × Conn)

/-- Registry lookup (`globalSSEMap.get`). -/
def regGet (reg : Registry) (k : String) : Option Conn :=
  match reg with
  | [] => none
  | (k', c) :: rest => if k' = k then some c else regGet rest k

/-- Registry insertion/overwrite (`globalSSEMap.set`). -/
def regSet (reg : Registry) (k : String) (c : Conn) : Registry :=
  match reg with
  | [] => [(k, c)]
  | (k', c') :: rest => if k' = k then (k, c) :: rest else (k', c') :: regSet rest k c

/-- Registry removal (`globalSSEMap.delete`). -/
def regErase (reg : Registry) (k : String) : Registry :=
  match reg with
  | [] => []
  | (k', c') :: rest => if k' = k then regErase rest k else (k', c') :: regErase rest k

/-- Outcome of one run of the main `useSSE` effect body. -/
inductive EffectOutcome where
  /-- returned because the submission is null/empty -/
  | noSubmission
  /-- reused the registered still-open transport (`setActiveSSE(existingSSE)`) -/
  | reattached (c : Conn)
  /-- returned by one of the duplicate-open guards without a transport -/
  | guarded
  /-- opened a fresh transport and registered it -/
  | openedNew (c : Conn)
  deriving DecidableEq, Repr

/-- Guards of the main `useSSE` effect that run after the existing-stream
reuse check, followed by transport creation: the navigation flag, the
user-message validity check, the open-stream key, the already-completed
check and the response-exists check each return without opening a
transport; past them a fresh transport is constructed (readyState 0
until `open` fires) and registered under the conversation id. -/
def mainEffectAfterReuseCheck (cid : String) (reg : Registry)
    (navFlagSet activeSSESet validUserMessage sseKeyOpen alreadyCompleted responseExists : Bool)
    (freshTag : Nat) : EffectOutcome × Registry :=
  if navFlagSet && activeSSESet then (.guarded, reg)
  else if !validUserMessage then (.guarded, reg)
  else if sseKeyOpen then (.guarded, reg)
  else if alreadyCompleted then (.guarded, reg)
  else if responseExists then (.guarded, reg)
  else
    let c : Conn := { readyState := 0, tag := freshTag }
    (.openedNew c, regSet reg cid c)

/-- Entry logic of the main effect of `src/client/src/hooks/SSE/useSSE.ts`
(lines 110-208), in source order: return on a null/empty submission;
look up `globalSSEMap` for the submission's conversation id and, if the
registered transport has `readyState === 1`, reattach to it and return
before anything else; otherwise run the remaining guards and possibly
open a fresh transport. -/
def mainEffectEntry (hasSubmission : Bool) (cid : String) (reg : Registry)
    (navFlagSet activeSSESet validUserMessage sseKeyOpen alreadyCompleted responseExists : Bool)
    (freshTag : Nat) : EffectOutcome × Registry :=
  if !hasSubmission then (.noSubmission, reg)
  else
    match regGet reg cid with
    | some c =>
      if c.readyState = 1 then (.reattached c, reg)
      else mainEffectAfterReuseCheck cid reg navFlagSet activeSSESet validUserMessage
        sseKeyOpen alreadyCompleted responseExists freshTag
    | none => mainEffectAfterReuseCheck cid reg navFlagSet activeSSESet validUserMessage
        sseKeyOpen alreadyCompleted responseExists freshTag

/-- Cleanup function returned by the main effect
(`src/client/src/hooks/SSE/useSSE.ts`, lines 360-372), run when the
owning view unmounts or the submission changes.  It never calls
`sse.close()`: with a truthy conversation id and an open transport it
re-registers the transport and returns; a fully closed transport
(readyState 2) is removed from the registry.  The connection value is
returned unchanged, reflecting that no path closes it. -/
def mainEffectCleanup (cid : String) (c : Conn) (reg : Registry) : Registry × Conn :=
  if cid ≠ "" && c.readyState = 1 then (regSet reg cid c, c)
  else if c.readyState = 2 then (regErase reg cid, c)
  else (reg, c)

/-- Outcome of one firing of the `error` listener of
`src/client/src/hooks/SSE/useSSE.ts` (lines 320-354). -/
structure ErrorOutcome where
  /-- number of calls to `request.refreshToken()` made by this firing -/
  refreshAttempts : Nat
  /-- whether `sse.stream()` was called again (transport retry) -/
  retriedStream : Bool
  /-- the bearer token installed into `sse.headers`, when updated -/
  headerToken : Option String
  /-- whether `errorHandler` was invoked -/
  errorHandlerInvoked : Bool
  /-- the submitting flag after the firing -/
  isSubmitting : Bool
  /-- whether the transport was removed from `globalSSEMap` -/
  removedFromRegistry : Bool
  deriving DecidableEq, Repr

/-- Modelled from the spec: the `errorHandler` supplied by
`useEventHandlers` is not among the sources provided; per §4.5/§7 it
surfaces the error to the user as a terminal error and ends the
submitting state. -/
def errorHandlerRun (_isSubmittingBefore : Bool) : Bool := false

/-- The non-401 / post-refresh-failure tail of the error listener:
localStorage flags cleared, `e.data` parsed (`setIsSubmitting(false)` on
parse failure), `errorHandler` invoked, transport dropped from the
registry. -/
def errorListenerFallback (refreshAttempts : Nat) (dataParses isSubmittingBefore : Bool) :
    ErrorOutcome :=
  let afterParse := if dataParses then isSubmittingBefore else false
  { refreshAttempts := refreshAttempts
    retriedStream := false
    headerToken := none
    errorHandlerInvoked := true
    isSubmitting := errorHandlerRun afterParse
    removedFromRegistry := true }

/-- The `error` listener of `src/client/src/hooks/SSE/useSSE.ts`
(lines 320-354).  On `responseCode === 401` it calls
`request.refreshToken()` once; `refreshResult` is `some t` when that
call returned (with `t` the token, possibly empty after `?? ''`) and
`none` when it threw.  A nonempty token is installed in the headers and
`sse.stream()` is called again, returning without touching anything
else; an empty token throws into the same catch as a failed call, after
which the generic error path runs. -/
def sseErrorListener (responseCode : Nat) (refreshResult : Option String)
    (dataParses isSubmittingBefore : Bool) : ErrorOutcome :=
  if responseCode = 401 then
    match refreshResult with
    | some t =>
      if t ≠ "" then
        { refreshAttempts := 1
          retriedStream := true
          headerToken := some t
          errorHandlerInvoked := false
          isSubmitting := isSubmittingBefore
          removedFromRegistry := false }
      else errorListenerFallback 1 dataParses isSubmittingBefore
    | none => errorListenerFallback 1 dataParses isSubmittingBefore
  else errorListenerFallback 0 dataParses isSubmittingBefore

end ClientSSE

namespace LogsSSE

theorem convLiveRun_cons (processed : List Nat) (item : ConvLiveItem) (rest : List ConvLiveItem) :
    convLiveRun processed (item :: rest) =
      ((convLiveRun (convLiveStep processed item).1 rest).1,
        (convLiveStep processed item).2 ++ (convLiveRun (convLiveStep processed item).1 rest).2) := by
  rfl

theorem msgLiveRun_cons (processed : List Nat) (item : MsgLiveItem) (rest : List MsgLiveItem) :
    msgLiveRun processed (item :: rest) =
      ((msgLiveRun (msgLiveStep processed item).1 rest).1,
        (msgLiveStep processed item).2 ++ (msgLiveRun (msgLiveStep processed item).1 rest).2) := by
  rfl

theorem convLiveRun_replicate_processed (c : Nat) (processed : List Nat) (h : c ∈ processed)
    (n : Nat) :
    convLiveRun processed
        (List.replicate n (ConvLiveItem.msgInsert true (some c) true true)) =
      (processed, List.replicate n (SRecord.conversationUpdate c)) := by
  induction n with
  | zero => rfl
  | succ k ih =>
    rw [List.replicate_succ, convLiveRun_cons]
    have hstep : convLiveStep processed (ConvLiveItem.msgInsert true (some c) true true) =
        (processed, [SRecord.conversationUpdate c]) := by
      simp [convLiveStep, h]
    rw [hstep]
    simp only [ih]
    simp [List.replicate_succ]

theorem msgLiveRun_replicate_processed (m : Nat) (processed : List Nat) (h : m ∈ processed)
    (n : Nat) :
    msgLiveRun processed (List.replicate n (MsgLiveItem.msgInsert true (some m) true)) =
      (processed, []) := by
  induction n with
  | zero => rfl
  | succ k ih =>
    rw [List.replicate_succ, msgLiveRun_cons]
    have hstep : msgLiveStep processed (MsgLiveItem.msgInsert true (some m) true) =
        (processed, []) := by
      simp [msgLiveStep, h]
    rw [hstep]
    simp only [ih]
    simp

/-- C1.  Corrected.  Replaying the same deliverable insert change event
N ≥ 1 times into a session's Live Change Source yields exactly one
emitted realtime record for its identifier, starting from an empty
Processed-ID Set: in the conversations session exactly one
`realtime_conversation` record, in the messages session exactly one
`realtime_message` record (and nothing else).  However, the
conversations session also emits one `conversation_update` record per
delivery (N in total): update-class records are not checked against the
Processed-ID Set, contrary to the claimed suppression rule. -/
theorem c1_theorem (n : Nat) (hn : 1 ≤ n) (c m : Nat) :
    (convLiveRun [] (List.replicate n (ConvLiveItem.msgInsert true (some c) true true))).2.count
        (SRecord.realtimeConversation c) = 1 ∧
    (convLiveRun [] (List.replicate n (ConvLiveItem.msgInsert true (some c) true true))).2.count
        (SRecord.conversationUpdate c) = n ∧
    (msgLiveRun [] (List.replicate n (MsgLiveItem.msgInsert true (some m) true))).2 =
      [SRecord.realtimeMessage m] := by
  obtain ⟨k, rfl⟩ : ∃ k, n = k + 1 := ⟨n - 1, by omega⟩
  simp only [List.replicate_succ]
  rw [convLiveRun_cons, msgLiveRun_cons]
  have hstepc : convLiveStep [] (ConvLiveItem.msgInsert true (some c) true true) =
      ([c], [SRecord.conversationUpdate c, SRecord.realtimeConversation c]) := by
    simp [convLiveStep]
  have hstepm : msgLiveStep [] (MsgLiveItem.msgInsert true (some m) true) =
      ([m], [SRecord.realtimeMessage m]) := by
    simp [msgLiveStep]
  rw [hstepc, hstepm,
    convLiveRun_replicate_processed c [c] (by simp) k,
    msgLiveRun_replicate_processed m [m] (by simp) k]
  refine ⟨?_, ?_, by simp⟩
  · simp [List.count_append, List.count_replicate, List.count_cons]
  · simp [List.count_append, List.count_replicate, List.count_cons]

/-- C1 witness: three deliveries of the same insert event. -/
theorem c1_witness :
    (convLiveRun []
        (List.replicate 3 (ConvLiveItem.msgInsert true (some 7) true true))).2.count
      (SRecord.realtimeConversation 7) = 1 ∧
    (convLiveRun []
        (List.replicate 3 (ConvLiveItem.msgInsert true (some 7) true true))).2.count
      (SRecord.conversationUpdate 7) = 3 ∧
    (msgLiveRun [] (List.replicate 3 (MsgLiveItem.msgInsert true (some 9) true))).2 =
      [SRecord.realtimeMessage 9] :=
  c1_theorem 3 (by decide) 7 9

/-- C1 counterexample to the claim as stated: after one delivery of the
insert event for conversation 7, the identifier 7 is in the Processed-ID
Set, yet a second delivery still emits an update-class record
(`conversation_update`) for it — it is not suppressed — so two
deliveries emit two update records. -/
theorem c1_counterexample :
    7 ∈ (convLiveRun [] [ConvLiveItem.msgInsert true (some 7) true true]).1 ∧
    SRecord.conversationUpdate 7 ∈
      (convLiveStep (convLiveRun [] [ConvLiveItem.msgInsert true (some 7) true true]).1
        (ConvLiveItem.msgInsert true (some 7) true true)).2 ∧
    (convLiveRun []
        [ConvLiveItem.msgInsert true (some 7) true true,
         ConvLiveItem.msgInsert true (some 7) true true]).2.count
      (SRecord.conversationUpdate 7) = 2 := by
  decide

theorem convLiveStep_classes (processed : List Nat) (item : ConvLiveItem) :
    ∀ r ∈ (convLiveStep processed item).2,
      classOf r ∈ [RecordClass.update, RecordClass.realtime, RecordClass.heartbeat] := by
  intro r hr
  cases item with
  | hbTick =>
    simp [convLiveStep] at hr
    simp [hr, classOf]
  | titleUpdate tc cid passes =>
    cases tc <;> cases passes <;> rcases cid with _ | c <;>
      simp [convLiveStep] at hr <;> simp [hr, classOf]
  | msgInsert isIns cid found passes =>
    cases isIns <;> cases found <;> cases passes <;> rcases cid with _ | c <;>
      simp [convLiveStep] at hr
    by_cases hc : c ∈ processed <;> simp [hc] at hr
    · simp [hr, classOf]
    · rcases hr with rfl | rfl <;> simp [classOf]

theorem msgLiveStep_classes (processed : List Nat) (item : MsgLiveItem) :
    ∀ r ∈ (msgLiveStep processed item).2,
      classOf r ∈ [RecordClass.update, RecordClass.realtime, RecordClass.heartbeat] := by
  intro r hr
  cases item with
  | hbTick =>
    simp [msgLiveStep] at hr
    simp [hr, classOf]
  | msgInsert isIns mid buildOk =>
    cases isIns <;> rcases mid with _ | m <;> simp [msgLiveStep] at hr
    by_cases hm : m ∈ processed <;> simp [hm] at hr
    cases buildOk <;> simp at hr
    simp [hr, classOf]

theorem convLiveRun_classes (items : List ConvLiveItem) (processed : List Nat) :
    ∀ r ∈ (convLiveRun processed items).2,
      classOf r ∈ [RecordClass.update, RecordClass.realtime, RecordClass.heartbeat] := by
  induction items generalizing processed with
  | nil => simp [convLiveRun]
  | cons item rest ih =>
    intro r hr
    rw [convLiveRun_cons] at hr
    rcases List.mem_append.mp hr with h | h
    · exact convLiveStep_classes processed item r h
    · exact ih _ r h

theorem msgLiveRun_classes (items : List MsgLiveItem) (processed : List Nat) :
    ∀ r ∈ (msgLiveRun processed items).2,
      classOf r ∈ [RecordClass.update, RecordClass.realtime, RecordClass.heartbeat] := by
  induction items generalizing processed with
  | nil => simp [msgLiveRun]
  | cons item rest ih =>
    intro r hr
    rw [msgLiveRun_cons] at hr
    rcases List.mem_append.mp hr with h | h
    · exact msgLiveStep_classes processed item r h
    · exact ih _ r h

theorem mem_convHeartbeatsOnly (live : List ConvLiveItem) :
    ∀ r ∈ convHeartbeatsOnly live, r = SRecord.heartbeat := by
  induction live with
  | nil => simp [convHeartbeatsOnly]
  | cons i rest ih =>
    intro r hr
    cases i with
    | hbTick =>
      rcases List.mem_cons.mp hr with h | h
      · exact h
      · exact ih r h
    | msgInsert a b c d => exact ih r hr
    | titleUpdate a b c => exact ih r hr

theorem mem_msgHeartbeatsOnly (live : List MsgLiveItem) :
    ∀ r ∈ msgHeartbeatsOnly live, r = SRecord.heartbeat := by
  induction live with
  | nil => simp [msgHeartbeatsOnly]
  | cons i rest ih =>
    intro r hr
    cases i with
    | hbTick =>
      rcases List.mem_cons.mp hr with h | h
      · exact h
      · exact ih r h
    | msgInsert a b c => exact ih r hr

theorem marker_not_mem_convLive (items : List ConvLiveItem) (processed : List Nat) :
    SRecord.historicalComplete ∉ (convLiveRun processed items).2 := by
  intro h
  have := convLiveRun_classes items processed _ h
  simp [classOf] at this

theorem marker_not_mem_msgLive (items : List MsgLiveItem) (processed : List Nat) :
    SRecord.historicalComplete ∉ (msgLiveRun processed items).2 := by
  intro h
  have := msgLiveRun_classes items processed _ h
  simp [classOf] at this

theorem marker_not_mem_convHb (live : List ConvLiveItem) :
    SRecord.historicalComplete ∉ convHeartbeatsOnly live := by
  intro h
  have := mem_convHeartbeatsOnly live _ h
  simp at this

theorem marker_not_mem_msgHb (live : List MsgLiveItem) :
    SRecord.historicalComplete ∉ msgHeartbeatsOnly live := by
  intro h
  have := mem_msgHeartbeatsOnly live _ h
  simp at this

theorem append_cons_unique {α : Type _} (m : α) :
    ∀ (A t₁ B t₂ : List α), m ∉ A → m ∉ B → A ++ m :: B = t₁ ++ m :: t₂ → t₂ = B := by
  intro A
  induction A with
  | nil =>
    intro t₁ B t₂ _ hB h
    cases t₁ with
    | nil =>
      simp only [List.nil_append, List.cons.injEq] at h
      exact h.2.symm
    | cons x t =>
      simp only [List.nil_append, List.cons_append, List.cons.injEq] at h
      obtain ⟨rfl, h2⟩ := h
      have hmB : m ∈ B := by
        rw [h2]
        exact List.mem_append_right t (List.mem_cons_self _ t₂)
      exact (hB hmB).elim
  | cons x A ih =>
    intro t₁ B t₂ hA hB h
    cases t₁ with
    | nil =>
      simp only [List.cons_append, List.nil_append, List.cons.injEq] at h
      obtain ⟨rfl, -⟩ := h
      exact (hA (List.mem_cons_self _ _)).elim
    | cons y t =>
      simp only [List.cons_append, List.cons.injEq] at h
      exact ih t B t₂ (fun hm => hA (List.mem_cons_of_mem x hm)) hB h.2

theorem marker_not_mem_conv_pre (preHb : Nat) (total : Nat) (backlog : List ConvoSummary) :
    SRecord.historicalComplete ∉
      List.replicate preHb SRecord.heartbeat
        ++ SRecord.initRec total backlog.length
          :: backlog.map (fun c => SRecord.historicalConversation c.conversationId c.updatedAt) := by
  intro h
  rcases List.mem_append.mp h with h | h
  · exact absurd (List.eq_of_mem_replicate h) (by simp)
  · rcases List.mem_cons.mp h with h | h
    · simp at h
    · obtain ⟨c, _, hc⟩ := List.mem_map.mp h
      simp at hc

theorem conversationsSessionTrace_shape_ok (preHb : Nat) (matching : List ConvoSummary)
    (skip limitNum : Nat) (live : List ConvLiveItem) :
    conversationsSessionTrace preHb matching skip limitNum true live =
      (List.replicate preHb SRecord.heartbeat
          ++ SRecord.initRec matching.length
              (conversationsAggregationResult matching skip limitNum).length
            :: (conversationsAggregationResult matching skip limitNum).map
              (fun c => SRecord.historicalConversation c.conversationId c.updatedAt))
        ++ SRecord.historicalComplete
          :: (convLiveRun
              ((conversationsAggregationResult matching skip limitNum).map
                (fun c => c.conversationId)) live).2 := by
  simp [conversationsSessionTrace]

theorem conversationsSessionTrace_shape_fail (preHb : Nat) (matching : List ConvoSummary)
    (skip limitNum : Nat) (live : List ConvLiveItem) :
    conversationsSessionTrace preHb matching skip limitNum false live =
      (List.replicate preHb SRecord.heartbeat
          ++ SRecord.initRec matching.length
              (conversationsAggregationResult matching skip limitNum).length
            :: (conversationsAggregationResult matching skip limitNum).map
              (fun c => SRecord.historicalConversation c.conversationId c.updatedAt))
        ++ SRecord.historicalComplete
          :: SRecord.errorRecord "Error setting up connection" :: convHeartbeatsOnly live := by
  simp [conversationsSessionTrace]

theorem messagesSessionTrace_shape_ok (stored : List MsgDoc) (watchOk : Bool)
    (live : List MsgLiveItem) :
    messagesSessionTrace stored true watchOk live =
      (SRecord.initRec (messagesBacklogResult stored).length
            (messagesBacklogResult stored).length
          :: (messagesBacklogResult stored).map
            (fun m => SRecord.historicalMessage m.mid m.createdAt))
        ++ SRecord.historicalComplete
          :: (if watchOk then (msgLiveRun [] live).2 else msgHeartbeatsOnly live) := by
  simp [messagesSessionTrace]

/-- C2.  Corrected.  In every server streaming session, all historical
records are emitted before the `historical_complete` marker, and every
record emitted after the marker is of class realtime, update, heartbeat,
control, or error: the error class must be admitted because the
conversations handler writes an `event: error` record after the marker
when the live change subscription fails to establish. -/
theorem c2_theorem (preHb : Nat) (matching : List ConvoSummary) (skip limitNum : Nat)
    (watchOk : Bool) (live : List ConvLiveItem) (stored : List MsgDoc)
    (fetchOk watchOk2 : Bool) (live2 : List MsgLiveItem) :
    afterMarkerAllowed (conversationsSessionTrace preHb matching skip limitNum watchOk live)
      [RecordClass.realtime, RecordClass.update, RecordClass.heartbeat,
        RecordClass.control, RecordClass.error] ∧
    afterMarkerAllowed (messagesSessionTrace stored fetchOk watchOk2 live2)
      [RecordClass.realtime, RecordClass.update, RecordClass.heartbeat,
        RecordClass.control, RecordClass.error] := by
  constructor
  · intro pre post heq r hr
    cases watchOk with
    | true =>
      rw [conversationsSessionTrace_shape_ok] at heq
      have hpost := append_cons_unique SRecord.historicalComplete _ pre _ post
        (marker_not_mem_conv_pre preHb matching.length _)
        (marker_not_mem_convLive _ _) heq
      subst hpost
      have := convLiveRun_classes live _ r hr
      simp at this
      rcases this with h | h | h <;> simp [h]
    | false =>
      rw [conversationsSessionTrace_shape_fail] at heq
      have hpost := append_cons_unique SRecord.historicalComplete _ pre _ post
        (marker_not_mem_conv_pre preHb matching.length _)
        (by
          intro hmem
          rcases List.mem_cons.mp hmem with h | h
          · simp at h
          · exact marker_not_mem_convHb live h)
        heq
      subst hpost
      rcases List.mem_cons.mp hr with h | h
      · simp [h, classOf]
      · have := mem_convHeartbeatsOnly live r h
        simp [this, classOf]
  · intro pre post heq r hr
    cases fetchOk with
    | true =>
      rw [messagesSessionTrace_shape_ok] at heq
      have hpost := append_cons_unique SRecord.historicalComplete _ pre _ post
        (by
          intro hmem
          rcases List.mem_cons.mp hmem with h | h
          · simp at h
          · obtain ⟨c, _, hc⟩ := List.mem_map.mp h
            simp at hc)
        (by
          cases watchOk2 with
          | true =>
            simp only [if_true]
            exact marker_not_mem_msgLive _ _
          | false =>
            simp only [Bool.false_eq_true, if_false]
            exact marker_not_mem_msgHb live2)
        heq
      subst hpost
      cases watchOk2 with
      | true =>
        simp only [if_true] at hr
        have := msgLiveRun_classes live2 _ r hr
        simp at this
        rcases this with h | h | h <;> simp [h]
      | false =>
        simp only [Bool.false_eq_true, if_false] at hr
        have := mem_msgHeartbeatsOnly live2 r hr
        simp [this, classOf]
    | false =>
      exfalso
      have hmem : SRecord.historicalComplete ∈ messagesSessionTrace stored false watchOk2 live2 := by
        rw [heq]
        exact List.mem_append_right pre (List.mem_cons_self _ post)
      simp only [messagesSessionTrace] at hmem
      rcases List.mem_append.mp hmem with h | h
      · simp at h
      · cases watchOk2 with
        | true =>
          simp only [if_true] at h
          exact marker_not_mem_msgLive _ _ h
        | false =>
          simp only [Bool.false_eq_true, if_false] at h
          exact marker_not_mem_msgHb live2 h

/-- C2 witness: a concrete conversations session with one backlog record
and one live heartbeat tick; the record after the marker (the heartbeat)
is of an allowed class. -/
theorem c2_witness :
    classOf SRecord.heartbeat ∈
      [RecordClass.realtime, RecordClass.update, RecordClass.heartbeat,
        RecordClass.control, RecordClass.error] :=
  (c2_theorem 0 [⟨1, 5⟩] 0 10 true [ConvLiveItem.hbTick] [] true true []).1
    [SRecord.initRec 1 1, SRecord.historicalConversation 1 5] [SRecord.heartbeat]
    (by decide) SRecord.heartbeat (by simp)

/-- C2 counterexample to the claim as stated: in a conversations session
whose live change subscription fails to establish, the record emitted
after the `historical_complete` marker is an `event: error` record, whose
class is neither realtime, update, heartbeat, nor control. -/
theorem c2_counterexample :
    ¬ afterMarkerAllowed (conversationsSessionTrace 0 [] 0 10 false [])
        [RecordClass.realtime, RecordClass.update, RecordClass.heartbeat,
          RecordClass.control] := by
  intro h
  have := h [SRecord.initRec 0 0] [SRecord.errorRecord "Error setting up connection"]
    (by decide) (SRecord.errorRecord "Error setting up connection") (by simp)
  simp [classOf] at this

theorem mem_insertDescBy (f : α → Int) (a x : α) :
    ∀ l : List α, x ∈ insertDescBy f a l → x = a ∨ x ∈ l := by
  intro l
  induction l with
  | nil => intro h; simpa [insertDescBy] using h
  | cons b t ih =>
    intro h
    by_cases hc : f b ≤ f a
    · simp only [insertDescBy, if_pos hc] at h
      simpa using List.mem_cons.mp h
    · simp only [insertDescBy, if_neg hc] at h
      rcases List.mem_cons.mp h with rfl | h
      · simp
      · rcases ih h with rfl | h
        · simp
        · simp [h]

theorem pairwise_insertDescBy (f : α → Int) (a : α) :
    ∀ l : List α, l.Pairwise (fun x y => f y ≤ f x) →
      (insertDescBy f a l).Pairwise (fun x y => f y ≤ f x) := by
  intro l
  induction l with
  | nil => intro _; simp [insertDescBy]
  | cons b t ih =>
    intro hl
    obtain ⟨hb, ht⟩ := List.pairwise_cons.mp hl
    by_cases hc : f b ≤ f a
    · simp only [insertDescBy, if_pos hc]
      refine List.pairwise_cons.mpr ⟨?_, hl⟩
      intro y hy
      rcases List.mem_cons.mp hy with rfl | hy
      · exact hc
      · exact le_trans (hb y hy) hc
    · simp only [insertDescBy, if_neg hc]
      refine List.pairwise_cons.mpr ⟨?_, ih ht⟩
      intro y hy
      rcases mem_insertDescBy f a y t hy with rfl | hy
      · omega
      · exact hb y hy

theorem pairwise_sortDescBy (f : α → Int) :
    ∀ l : List α, (sortDescBy f l).Pairwise (fun x y => f y ≤ f x) := by
  intro l
  induction l with
  | nil => simp [sortDescBy]
  | cons a t ih => exact pairwise_insertDescBy f a (sortDescBy f t) ih

theorem mem_insertAscBy (f : α → Int) (a x : α) :
    ∀ l : List α, x ∈ insertAscBy f a l → x = a ∨ x ∈ l := by
  intro l
  induction l with
  | nil => intro h; simpa [insertAscBy] using h
  | cons b t ih =>
    intro h
    by_cases hc : f a ≤ f b
    · simp only [insertAscBy, if_pos hc] at h
      simpa using List.mem_cons.mp h
    · simp only [insertAscBy, if_neg hc] at h
      rcases List.mem_cons.mp h with rfl | h
      · simp
      · rcases ih h with rfl | h
        · simp
        · simp [h]

theorem pairwise_insertAscBy (f : α → Int) (a : α) :
    ∀ l : List α, l.Pairwise (fun x y => f x ≤ f y) →
      (insertAscBy f a l).Pairwise (fun x y => f x ≤ f y) := by
  intro l
  induction l with
  | nil => intro _; simp [insertAscBy]
  | cons b t ih =>
    intro hl
    obtain ⟨hb, ht⟩ := List.pairwise_cons.mp hl
    by_cases hc : f a ≤ f b
    · simp only [insertAscBy, if_pos hc]
      refine List.pairwise_cons.mpr ⟨?_, hl⟩
      intro y hy
      rcases List.mem_cons.mp hy with rfl | hy
      · exact hc
      · exact le_trans hc (hb y hy)
    · simp only [insertAscBy, if_neg hc]
      refine List.pairwise_cons.mpr ⟨?_, ih ht⟩
      intro y hy
      rcases mem_insertAscBy f a y t hy with rfl | hy
      · omega
      · exact hb y hy

theorem pairwise_sortAscBy (f : α → Int) :
    ∀ l : List α, (sortAscBy f l).Pairwise (fun x y => f x ≤ f y) := by
  intro l
  induction l with
  | nil => simp [sortAscBy]
  | cons a t ih => exact pairwise_insertAscBy f a (sortAscBy f t) ih

theorem historicalTimestamps_append (s t : List SRecord) :
    historicalTimestamps (s ++ t) = historicalTimestamps s ++ historicalTimestamps t := by
  simp [historicalTimestamps, List.filterMap_append]

theorem historicalTimestamps_eq_nil (t : List SRecord)
    (h : ∀ r ∈ t, classOf r ≠ RecordClass.historical) : historicalTimestamps t = [] := by
  induction t with
  | nil => rfl
  | cons r rest ih =>
    have hr := h r (List.mem_cons_self r rest)
    have hrest := ih fun x hx => h x (List.mem_cons_of_mem r hx)
    cases r with
    | historicalConversation c ts => exact (hr rfl).elim
    | historicalMessage m ts => exact (hr rfl).elim
    | initRec a b => exact hrest
    | historicalComplete => exact hrest
    | heartbeat => exact hrest
    | conversationUpdate c => exact hrest
    | realtimeConversation c => exact hrest
    | realtimeMessage m => exact hrest
    | errorRecord m => exact hrest
    | warningRecord m => exact hrest

theorem historicalTimestamps_convLive (items : List ConvLiveItem) (processed : List Nat) :
    historicalTimestamps (convLiveRun processed items).2 = [] := by
  refine historicalTimestamps_eq_nil _ fun r hr => ?_
  have := convLiveRun_classes items processed r hr
  intro hc
  rw [hc] at this
  simp at this

theorem historicalTimestamps_msgLive (items : List MsgLiveItem) (processed : List Nat) :
    historicalTimestamps (msgLiveRun processed items).2 = [] := by
  refine historicalTimestamps_eq_nil _ fun r hr => ?_
  have := msgLiveRun_classes items processed r hr
  intro hc
  rw [hc] at this
  simp at this

theorem historicalTimestamps_convHb (live : List ConvLiveItem) :
    historicalTimestamps (convHeartbeatsOnly live) = [] := by
  refine historicalTimestamps_eq_nil _ fun r hr => ?_
  rw [mem_convHeartbeatsOnly live r hr]
  simp [classOf]

theorem historicalTimestamps_msgHb (live : List MsgLiveItem) :
    historicalTimestamps (msgHeartbeatsOnly live) = [] := by
  refine historicalTimestamps_eq_nil _ fun r hr => ?_
  rw [mem_msgHeartbeatsOnly live r hr]
  simp [classOf]

theorem historicalTimestamps_cons_init (a b : Nat) (t : List SRecord) :
    historicalTimestamps (SRecord.initRec a b :: t) = historicalTimestamps t := rfl

theorem historicalTimestamps_cons_marker (t : List SRecord) :
    historicalTimestamps (SRecord.historicalComplete :: t) = historicalTimestamps t := rfl

theorem historicalTimestamps_cons_error (m : String) (t : List SRecord) :
    historicalTimestamps (SRecord.errorRecord m :: t) = historicalTimestamps t := rfl

theorem historicalTimestamps_convMap (backlog : List ConvoSummary) :
    historicalTimestamps
        (backlog.map (fun c => SRecord.historicalConversation c.conversationId c.updatedAt)) =
      backlog.map (fun c => c.updatedAt) := by
  induction backlog with
  | nil => rfl
  | cons c t ih =>
    simp only [List.map_cons]
    rw [show historicalTimestamps
          (SRecord.historicalConversation c.conversationId c.updatedAt
            :: t.map (fun x => SRecord.historicalConversation x.conversationId x.updatedAt)) =
        c.updatedAt :: historicalTimestamps
          (t.map (fun x => SRecord.historicalConversation x.conversationId x.updatedAt)) from rfl]
    rw [ih]

theorem historicalTimestamps_msgMap (backlog : List MsgDoc) :
    historicalTimestamps (backlog.map (fun m => SRecord.historicalMessage m.mid m.createdAt)) =
      backlog.map (fun m => m.createdAt) := by
  induction backlog with
  | nil => rfl
  | cons c t ih =>
    simp only [List.map_cons]
    rw [show historicalTimestamps
          (SRecord.historicalMessage c.mid c.createdAt
            :: t.map (fun x => SRecord.historicalMessage x.mid x.createdAt)) =
        c.createdAt :: historicalTimestamps
          (t.map (fun x => SRecord.historicalMessage x.mid x.createdAt)) from rfl]
    rw [ih]

theorem historicalTimestamps_replicate_hb (n : Nat) :
    historicalTimestamps (List.replicate n SRecord.heartbeat) = [] := by
  refine historicalTimestamps_eq_nil _ fun r hr => ?_
  rw [List.eq_of_mem_replicate hr]
  simp [classOf]

theorem historicalTimestamps_conversations (preHb : Nat) (matching : List ConvoSummary)
    (skip limitNum : Nat) (watchOk : Bool) (live : List ConvLiveItem) :
    historicalTimestamps (conversationsSessionTrace preHb matching skip limitNum watchOk live) =
      (conversationsAggregationResult matching skip limitNum).map (fun c => c.updatedAt) := by
  cases watchOk with
  | true =>
    rw [conversationsSessionTrace_shape_ok, historicalTimestamps_append,
      historicalTimestamps_append, historicalTimestamps_replicate_hb,
      historicalTimestamps_cons_init, historicalTimestamps_convMap,
      historicalTimestamps_cons_marker, historicalTimestamps_convLive]
    simp
  | false =>
    rw [conversationsSessionTrace_shape_fail, historicalTimestamps_append,
      historicalTimestamps_append, historicalTimestamps_replicate_hb,
      historicalTimestamps_cons_init, historicalTimestamps_convMap,
      historicalTimestamps_cons_marker, historicalTimestamps_cons_error,
      historicalTimestamps_convHb]
    simp

theorem historicalTimestamps_messages_ok (stored : List MsgDoc) (watchOk : Bool)
    (live : List MsgLiveItem) :
    historicalTimestamps (messagesSessionTrace stored true watchOk live) =
      (messagesBacklogResult stored).map (fun m => m.createdAt) := by
  rw [messagesSessionTrace_shape_ok, historicalTimestamps_append,
    historicalTimestamps_cons_init, historicalTimestamps_msgMap,
    historicalTimestamps_cons_marker]
  cases watchOk with
  | true =>
    rw [if_pos rfl, historicalTimestamps_msgLive]
    simp
  | false =>
    rw [if_neg (by simp), historicalTimestamps_msgHb]
    simp

theorem historicalTimestamps_messages_fail (stored : List MsgDoc) (watchOk : Bool)
    (live : List MsgLiveItem) :
    historicalTimestamps (messagesSessionTrace stored false watchOk live) = [] := by
  simp only [messagesSessionTrace]
  rw [if_neg (by simp : ¬ (false = true))]
  rw [historicalTimestamps_append, historicalTimestamps_cons_init]
  cases watchOk with
  | true =>
    rw [if_pos rfl, historicalTimestamps_msgLive]
    rfl
  | false =>
    rw [if_neg (by simp), historicalTimestamps_msgHb]
    rfl

/-- C3.  Corrected.  In the BACKLOG phase, the messages session emits
its historical records in chronological order (oldest first: the backlog
query sorts by `createdAt` ascending), while the conversations session
emits its historical records in reverse chronological order (newest
first: the aggregation pipeline sorts by `updatedAt` descending and the
handler does not reverse it). -/
theorem c3_theorem (stored : List MsgDoc) (fetchOk watchOk : Bool) (live : List MsgLiveItem)
    (preHb : Nat) (matching : List ConvoSummary) (skip limitNum : Nat) (watchOk2 : Bool)
    (live2 : List ConvLiveItem) :
    (historicalTimestamps (messagesSessionTrace stored fetchOk watchOk live)).Pairwise
      (fun a b => a ≤ b) ∧
    (historicalTimestamps
        (conversationsSessionTrace preHb matching skip limitNum watchOk2 live2)).Pairwise
      (fun a b => b ≤ a) := by
  constructor
  · cases fetchOk with
    | true =>
      rw [historicalTimestamps_messages_ok]
      rw [List.pairwise_map]
      exact pairwise_sortAscBy (fun m => m.createdAt) stored
    | false =>
      rw [historicalTimestamps_messages_fail]
      exact List.Pairwise.nil
  · rw [historicalTimestamps_conversations]
    rw [List.pairwise_map]
    have hsorted := pairwise_sortDescBy (fun c => c.updatedAt) matching
    have hdrop : ((sortDescBy (fun c => c.updatedAt) matching).drop skip).Pairwise
        (fun x y => y.updatedAt ≤ x.updatedAt) :=
      hsorted.sublist (List.drop_sublist skip _)
    exact hdrop.sublist (List.take_sublist limitNum _)

/-- C3 counterexample to the claim as stated: a conversations session
with two backlog conversations last updated at times 1 and 2 emits them
newest first (timestamps 2 then 1), which is not chronological
oldest-first order. -/
theorem c3_counterexample :
    ¬ (historicalTimestamps
          (conversationsSessionTrace 0 [⟨1, 1⟩, ⟨2, 2⟩] 0 10 true [])).Pairwise
        (fun a b => a ≤ b) := by
  intro h
  have heval : historicalTimestamps (conversationsSessionTrace 0 [⟨1, 1⟩, ⟨2, 2⟩] 0 10 true []) =
      [2, 1] := by decide
  rw [heval] at h
  obtain ⟨hle, -⟩ := List.pairwise_cons.mp h
  have := hle 1 (by simp)
  omega

theorem sessRun_phase (evs : List SessEvent) :
    ∀ s : ServerSession, (sessRun s evs).phase = SessPhase.closed ↔
      s.phase = SessPhase.closed ∨ SessEvent.clientDisconnect ∈ evs := by
  induction evs with
  | nil =>
    intro s
    simp [sessRun]
  | cons e rest ih =>
    intro s
    rw [sessRun, ih]
    cases e with
    | timePasses ms => simp [sessStep]
    | hbFire => simp [sessStep]
    | liveChange => simp [sessStep]
    | clientDisconnect => simp [sessStep]

/-- C4.  Corrected.  Neither SSE handler enforces a maximum session
lifetime: a server streaming session reaches CLOSED exactly when the
client disconnects, regardless of how much time has passed; with no
disconnect event the session stays live through any amount of elapsed
time and live traffic. -/
theorem c4_theorem (evs : List SessEvent) :
    (sessRun serverSessionStart evs).phase = SessPhase.closed ↔
      SessEvent.clientDisconnect ∈ evs := by
  rw [sessRun_phase]
  simp [serverSessionStart]

/-- C4 counterexample to the claim as stated: a session that has been
open for 601000 ms (past the claimed 10-minute ceiling) and keeps
receiving live traffic and heartbeat firings is still live, not
closed. -/
theorem c4_counterexample :
    (sessRun serverSessionStart
        [SessEvent.timePasses 601000, SessEvent.liveChange, SessEvent.hbFire]).phase =
      SessPhase.live ∧
    600000 <
      (sessRun serverSessionStart
        [SessEvent.timePasses 601000, SessEvent.liveChange, SessEvent.hbFire]).elapsedMs := by
  decide

/-- C4 witness: a session whose event list contains a client disconnect
is closed. -/
theorem c4_witness :
    (sessRun serverSessionStart [SessEvent.hbFire, SessEvent.clientDisconnect]).phase =
      SessPhase.closed :=
  (c4_theorem [SessEvent.hbFire, SessEvent.clientDisconnect]).mpr (by simp)

theorem countP_eq_zero_of_classes (p : SRecord → Bool) (t : List SRecord)
    (h : ∀ r ∈ t, p r = false) : t.countP p = 0 := by
  rw [List.countP_eq_zero]
  intro r hr
  simp [h r hr]

theorem convLive_no_error (items : List ConvLiveItem) (processed : List Nat) :
    ((convLiveRun processed items).2.countP isErrorRec = 0 ∧
      (convLiveRun processed items).2.countP isWarningRec = 0) := by
  constructor <;>
    refine countP_eq_zero_of_classes _ _ fun r hr => ?_ <;>
    have := convLiveRun_classes items processed r hr <;>
    cases r <;> simp_all [classOf, isErrorRec, isWarningRec]

theorem msgLive_no_error (items : List MsgLiveItem) (processed : List Nat) :
    ((msgLiveRun processed items).2.countP isErrorRec = 0 ∧
      (msgLiveRun processed items).2.countP isWarningRec = 0) := by
  constructor <;>
    refine countP_eq_zero_of_classes _ _ fun r hr => ?_ <;>
    have := msgLiveRun_classes items processed r hr <;>
    cases r <;> simp_all [classOf, isErrorRec, isWarningRec]

theorem convHb_no_error (live : List ConvLiveItem) :
    (convHeartbeatsOnly live).countP isErrorRec = 0 ∧
      (convHeartbeatsOnly live).countP isWarningRec = 0 := by
  constructor <;>
    refine countP_eq_zero_of_classes _ _ fun r hr => ?_ <;>
    rw [mem_convHeartbeatsOnly live r hr] <;> rfl

theorem msgHb_no_error (live : List MsgLiveItem) :
    (msgHeartbeatsOnly live).countP isErrorRec = 0 ∧
      (msgHeartbeatsOnly live).countP isWarningRec = 0 := by
  constructor <;>
    refine countP_eq_zero_of_classes _ _ fun r hr => ?_ <;>
    rw [mem_msgHeartbeatsOnly live r hr] <;> rfl

theorem conv_pre_no_error (preHb : Nat) (total : Nat) (backlog : List ConvoSummary)
    (p : SRecord → Bool) (hp1 : p SRecord.heartbeat = false)
    (hp2 : ∀ a b, p (SRecord.initRec a b) = false)
    (hp3 : ∀ c ts, p (SRecord.historicalConversation c ts) = false) :
    (List.replicate preHb SRecord.heartbeat
        ++ SRecord.initRec total backlog.length
          :: backlog.map
            (fun c => SRecord.historicalConversation c.conversationId c.updatedAt)).countP p
      = 0 := by
  refine countP_eq_zero_of_classes _ _ fun r hr => ?_
  rcases List.mem_append.mp hr with h | h
  · rw [List.eq_of_mem_replicate h]
    exact hp1
  · rcases List.mem_cons.mp h with rfl | h
    · exact hp2 _ _
    · obtain ⟨c, _, hc⟩ := List.mem_map.mp h
      rw [← hc]
      exact hp3 _ _

/-- C7.  Corrected.  When the live change subscription fails to
establish, both server sessions do continue (the heartbeat interval keeps
emitting after the failure point and the trace extends normally), but
neither emits a warning control record: the conversations session emits
exactly one `event: error` record ("Error setting up connection") — a
hard error record, contrary to the claim — and the messages session
emits nothing at all about the failure. -/
theorem c7_theorem (preHb : Nat) (matching : List ConvoSummary) (skip limitNum : Nat)
    (live : List ConvLiveItem) (stored : List MsgDoc) (live2 : List MsgLiveItem) :
    (conversationsSessionTrace preHb matching skip limitNum false live).countP isErrorRec = 1 ∧
    (conversationsSessionTrace preHb matching skip limitNum false live).countP isWarningRec = 0 ∧
    (∃ pre, conversationsSessionTrace preHb matching skip limitNum false live =
        pre ++ SRecord.errorRecord "Error setting up connection" :: convHeartbeatsOnly live) ∧
    (messagesSessionTrace stored true false live2).countP isErrorRec = 0 ∧
    (messagesSessionTrace stored true false live2).countP isWarningRec = 0 := by
  refine ⟨?_, ?_, ?_, ?_, ?_⟩
  · rw [conversationsSessionTrace_shape_fail, List.countP_append, List.countP_cons]
    rw [conv_pre_no_error preHb matching.length _ isErrorRec rfl (fun _ _ => rfl) (fun _ _ => rfl)]
    rw [List.countP_cons, (convHb_no_error live).1]
    simp [isErrorRec]
  · rw [conversationsSessionTrace_shape_fail, List.countP_append, List.countP_cons]
    rw [conv_pre_no_error preHb matching.length _ isWarningRec rfl (fun _ _ => rfl)
      (fun _ _ => rfl)]
    rw [List.countP_cons, (convHb_no_error live).2]
    simp [isWarningRec]
  · refine ⟨(List.replicate preHb SRecord.heartbeat
        ++ SRecord.initRec matching.length
            (conversationsAggregationResult matching skip limitNum).length
          :: (conversationsAggregationResult matching skip limitNum).map
            (fun c => SRecord.historicalConversation c.conversationId c.updatedAt))
        ++ [SRecord.historicalComplete], ?_⟩
    rw [conversationsSessionTrace_shape_fail]
    simp
  · rw [messagesSessionTrace_shape_ok, List.countP_append, List.countP_cons]
    have h1 : (List.map (fun m => SRecord.historicalMessage m.mid m.createdAt)
        (messagesBacklogResult stored)).countP isErrorRec = 0 := by
      refine countP_eq_zero_of_classes _ _ fun r hr => ?_
      obtain ⟨c, _, hc⟩ := List.mem_map.mp hr
      rw [← hc]
      rfl
    rw [h1, if_neg (by simp : ¬ (false = true)), List.countP_cons, (msgHb_no_error live2).1]
    simp [isErrorRec]
  · rw [messagesSessionTrace_shape_ok, List.countP_append, List.countP_cons]
    have h1 : (List.map (fun m => SRecord.historicalMessage m.mid m.createdAt)
        (messagesBacklogResult stored)).countP isWarningRec = 0 := by
      refine countP_eq_zero_of_classes _ _ fun r hr => ?_
      obtain ⟨c, _, hc⟩ := List.mem_map.mp hr
      rw [← hc]
      rfl
    rw [h1, if_neg (by simp : ¬ (false = true)), List.countP_cons, (msgHb_no_error live2).2]
    simp [isWarningRec]

/-- C7 counterexample to the claim as stated: in a concrete conversations
session whose subscription setup fails, zero warning control records are
emitted (the claim requires exactly one) and one hard error record is
emitted (the claim forbids any). -/
theorem c7_counterexample :
    (conversationsSessionTrace 0 [] 0 10 false [ConvLiveItem.hbTick]).countP isWarningRec = 0 ∧
    (conversationsSessionTrace 0 [] 0 10 false [ConvLiveItem.hbTick]).countP isErrorRec = 1 := by
  decide

/-- C9.  Corrected.  The heartbeat record serialized by both SSE
handlers carries only the reserved `type` field with value "heartbeat":
its field list is exactly ["type"], with no `timestamp` field and no
other payload. -/
theorem c9_theorem :
    conversationsHeartbeatPayload.map Prod.fst = ["type"] ∧
    messagesHeartbeatPayload.map Prod.fst = ["type"] ∧
    conversationsHeartbeatPayload.lookup "type" = some (JVal.jstr "heartbeat") ∧
    messagesHeartbeatPayload.lookup "type" = some (JVal.jstr "heartbeat") := by
  decide

/-- C9 counterexample to the claim as stated: neither handler's heartbeat
payload contains a `timestamp` field. -/
theorem c9_counterexample :
    "timestamp" ∉ conversationsHeartbeatPayload.map Prod.fst ∧
    "timestamp" ∉ messagesHeartbeatPayload.map Prod.fst := by
  decide

theorem jsMax_int (a b : Int) : jsMax (JSNum.int a) (JSNum.int b) = JSNum.int (max a b) := rfl

theorem jsMin_int (a b : Int) : jsMin (JSNum.int a) (JSNum.int b) = JSNum.int (min a b) := rfl

theorem jsLt_int (a b : Int) : jsLt (JSNum.int a) (JSNum.int b) = decide (a < b) := rfl

theorem jsCeilDiv_pos (t : Nat) (l : Int) (h : 0 < l) :
    jsCeilDiv t (JSNum.int l) = JSNum.int (((t : Int) + l - 1) / l) := by
  simp only [jsCeilDiv, if_pos h]

theorem limitNum_ge_one_or_nan (page? limit? : Option JSNum) (all : Bool) (totalCount : Nat) :
    (fetchConversationsWindow page? limit? all totalCount).limitNum = JSNum.nan ∨
      ∃ L : Int, (fetchConversationsWindow page? limit? all totalCount).limitNum = JSNum.int L ∧
        1 ≤ L := by
  cases all with
  | true =>
    refine Or.inr ⟨max (totalCount : Int) 1, ?_, ?_⟩
    · simp [fetchConversationsWindow, jsMax_int]
    · omega
  | false =>
    rcases hlim : limit?.getD (JSNum.int 10) with v | _
    · refine Or.inr ⟨min (max v 1) 100, ?_, ?_⟩
      · simp [fetchConversationsWindow, hlim, jsMax_int, jsMin_int]
      · omega
    · refine Or.inl ?_
      simp [fetchConversationsWindow, hlim, jsMax, jsMin]

/-- C10.  Corrected.  For every query whose page and limit parameters
parse to integers (or are absent), `fetchConversations` clamps the
effective page to at least 1 and the effective page size into [1, 100];
with `all='true'` it uses skip 0 and fetch limit `max(totalCount, 1)`;
and the returned pagination satisfies `totalPages >= 1`,
`currentPage = min(effective page, totalPages)`, `hasNext` iff the
effective (clamped) page is below `totalPages`, and `hasPrev` iff the
effective page exceeds 1.  A non-numeric page or limit parameter makes
`parseInt` return NaN, which propagates so that the computed page or
`totalPages` is NaN rather than at least 1. -/
theorem c10_theorem (p l : Option Int) (all : Bool) (totalCount : Nat) :
    ∃ pv lv tv : Int,
      (fetchConversationsWindow (p.map JSNum.int) (l.map JSNum.int) all totalCount).pageNum =
        JSNum.int pv ∧
      (fetchConversationsWindow (p.map JSNum.int) (l.map JSNum.int) all totalCount).limitQ =
        JSNum.int lv ∧
      (fetchConversationsWindow (p.map JSNum.int) (l.map JSNum.int) all
          totalCount).pagination.totalPages = JSNum.int tv ∧
      1 ≤ pv ∧ 1 ≤ lv ∧ lv ≤ 100 ∧ 1 ≤ tv ∧
      (all = true →
        (fetchConversationsWindow (p.map JSNum.int) (l.map JSNum.int) all totalCount).skip =
          JSNum.int 0 ∧
        (fetchConversationsWindow (p.map JSNum.int) (l.map JSNum.int) all totalCount).limitNum =
          JSNum.int (max (totalCount : Int) 1)) ∧
      (fetchConversationsWindow (p.map JSNum.int) (l.map JSNum.int) all
          totalCount).pagination.currentPage = JSNum.int (min pv tv) ∧
      ((fetchConversationsWindow (p.map JSNum.int) (l.map JSNum.int) all
          totalCount).pagination.hasNext = true ↔ pv < tv) ∧
      ((fetchConversationsWindow (p.map JSNum.int) (l.map JSNum.int) all
          totalCount).pagination.hasPrev = true ↔ 1 < pv) := by
  have hp : (Option.map JSNum.int p).getD (JSNum.int 1) = JSNum.int (p.getD 1) := by
    cases p <;> rfl
  have hl : (Option.map JSNum.int l).getD (JSNum.int 10) = JSNum.int (l.getD 10) := by
    cases l <;> rfl
  cases all with
  | true =>
    refine ⟨max (p.getD 1) 1, min (max (l.getD 10) 1) 100,
      max 1 (((totalCount : Int) + max (totalCount : Int) 1 - 1) / max (totalCount : Int) 1),
      ?_, ?_, ?_, ?_, ?_, ?_, ?_, ?_, ?_, ?_, ?_⟩
    · simp [fetchConversationsWindow, hp, jsMax_int]
    · simp [fetchConversationsWindow, hl, jsMax_int, jsMin_int]
    · simp [fetchConversationsWindow, jsMax_int,
        jsCeilDiv_pos totalCount (max (totalCount : Int) 1) (by omega)]
    · omega
    · omega
    · omega
    · exact le_max_left _ _
    · intro _
      constructor
      · simp [fetchConversationsWindow]
      · simp [fetchConversationsWindow, jsMax_int]
    · simp [fetchConversationsWindow, hp, jsMax_int,
        jsCeilDiv_pos totalCount (max (totalCount : Int) 1) (by omega), jsMin_int]
    · simp [fetchConversationsWindow, hp, jsMax_int,
        jsCeilDiv_pos totalCount (max (totalCount : Int) 1) (by omega), jsLt_int]
    · simp [fetchConversationsWindow, hp, jsMax_int, jsLt_int]
  | false =>
    refine ⟨max (p.getD 1) 1, min (max (l.getD 10) 1) 100,
      max 1 (((totalCount : Int) + min (max (l.getD 10) 1) 100 - 1) /
        min (max (l.getD 10) 1) 100),
      ?_, ?_, ?_, ?_, ?_, ?_, ?_, ?_, ?_, ?_, ?_⟩
    · simp [fetchConversationsWindow, hp, jsMax_int]
    · simp [fetchConversationsWindow, hl, jsMax_int, jsMin_int]
    · simp [fetchConversationsWindow, hl, jsMax_int, jsMin_int,
        jsCeilDiv_pos totalCount (min (max (l.getD 10) 1) 100) (by omega)]
    · omega
    · omega
    · omega
    · exact le_max_left _ _
    · intro h
      exact absurd h (by simp)
    · simp [fetchConversationsWindow, hp, hl, jsMax_int, jsMin_int,
        jsCeilDiv_pos totalCount (min (max (l.getD 10) 1) 100) (by omega)]
    · simp [fetchConversationsWindow, hp, hl, jsMax_int, jsMin_int,
        jsCeilDiv_pos totalCount (min (max (l.getD 10) 1) 100) (by omega), jsLt_int]
    · simp [fetchConversationsWindow, hp, jsMax_int, jsLt_int]

/-- C10 witness: a concrete parseable query (`page=2`, `limit=50`,
`all='true'`, total 7) with its effective values. -/
theorem c10_witness :
    ∃ pv lv tv : Int,
      (fetchConversationsWindow ((some 2 : Option Int).map JSNum.int)
          ((some 50 : Option Int).map JSNum.int) true 7).pageNum = JSNum.int pv ∧
      (fetchConversationsWindow ((some 2 : Option Int).map JSNum.int)
          ((some 50 : Option Int).map JSNum.int) true 7).limitQ = JSNum.int lv ∧
      (fetchConversationsWindow ((some 2 : Option Int).map JSNum.int)
          ((some 50 : Option Int).map JSNum.int) true 7).pagination.totalPages =
        JSNum.int tv ∧
      1 ≤ pv ∧ 1 ≤ lv ∧ lv ≤ 100 ∧ 1 ≤ tv ∧
      (true = true →
        (fetchConversationsWindow ((some 2 : Option Int).map JSNum.int)
            ((some 50 : Option Int).map JSNum.int) true 7).skip = JSNum.int 0 ∧
        (fetchConversationsWindow ((some 2 : Option Int).map JSNum.int)
            ((some 50 : Option Int).map JSNum.int) true 7).limitNum =
          JSNum.int (max ((7 : Nat) : Int) 1)) ∧
      (fetchConversationsWindow ((some 2 : Option Int).map JSNum.int)
          ((some 50 : Option Int).map JSNum.int) true 7).pagination.currentPage =
        JSNum.int (min pv tv) ∧
      ((fetchConversationsWindow ((some 2 : Option Int).map JSNum.int)
          ((some 50 : Option Int).map JSNum.int) true 7).pagination.hasNext = true ↔
        pv < tv) ∧
      ((fetchConversationsWindow ((some 2 : Option Int).map JSNum.int)
          ((some 50 : Option Int).map JSNum.int) true 7).pagination.hasPrev = true ↔
        1 < pv) :=
  c10_theorem (some 2) (some 50) true 7

/-- C10 counterexample to the claim as stated: with non-numeric `page`
and `limit` parameters (`parseInt` returns NaN), the effective page
number and `totalPages` are NaN, not at least 1; and reading "requested
page" literally, a requested `page=0` with one total page has requested
page < totalPages yet `hasNext` false. -/
theorem c10_counterexample :
    (fetchConversationsWindow (some JSNum.nan) (some JSNum.nan) false 5).pageNum =
      JSNum.nan ∧
    (fetchConversationsWindow (some JSNum.nan) (some JSNum.nan) false 5).pagination.totalPages =
      JSNum.nan ∧
    (fetchConversationsWindow (some (JSNum.int 0)) none false 5).pagination.totalPages =
      JSNum.int 1 ∧
    (fetchConversationsWindow (some (JSNum.int 0)) none false 5).pagination.hasNext = false ∧
    (0 : Int) < 1 := by
  decide

end LogsSSE

namespace ClientSSE

/-- C5.  Corrected.  In the primary hook
(`src/client/src/hooks/SSE/useSSE.ts`), the explicit-stop effect only
marks local state non-submitting: it deliberately leaves the transport's
ready state unchanged (no close), sends no remote-abort request, and
keeps the `activeSSE` reference.  Only the variant hook
(`src/unnamed/part_003`) closes an open transport (ready state 2) and
issues one remote-abort request when a user message is present, clearing
the `activeSSE` reference. -/
theorem c5_theorem (s : StopState) (h : s.activeSSERef = true) :
    (explicitStopEffect true s).isSubmitting = false ∧
    (explicitStopEffect true s).connReadyState = s.connReadyState ∧
    (explicitStopEffect true s).abortsSent = s.abortsSent ∧
    (explicitStopEffect true s).activeSSERef = s.activeSSERef ∧
    (s.connReadyState = 1 → (explicitStopEffectVariant true true s).connReadyState = 2) ∧
    (explicitStopEffectVariant true true s).abortsSent = s.abortsSent + 1 ∧
    (explicitStopEffectVariant true true s).activeSSERef = false := by
  refine ⟨?_, ?_, ?_, ?_, ?_, ?_, ?_⟩
  · simp [explicitStopEffect, h]
  · simp [explicitStopEffect, h]
  · simp [explicitStopEffect, h]
  · simp [explicitStopEffect, h]
  · intro h1
    simp [explicitStopEffectVariant, h, h1]
  · simp [explicitStopEffectVariant, h]
  · simp [explicitStopEffectVariant, h]

/-- C5 witness: a concrete state with an open transport and an active
submission undergoing explicit stop in both hooks. -/
theorem c5_witness :
    (explicitStopEffect true ⟨1, true, true, 0⟩).isSubmitting = false ∧
    (explicitStopEffect true ⟨1, true, true, 0⟩).connReadyState =
      (⟨1, true, true, 0⟩ : StopState).connReadyState ∧
    (explicitStopEffect true ⟨1, true, true, 0⟩).abortsSent =
      (⟨1, true, true, 0⟩ : StopState).abortsSent ∧
    (explicitStopEffect true ⟨1, true, true, 0⟩).activeSSERef =
      (⟨1, true, true, 0⟩ : StopState).activeSSERef ∧
    ((⟨1, true, true, 0⟩ : StopState).connReadyState = 1 →
      (explicitStopEffectVariant true true ⟨1, true, true, 0⟩).connReadyState = 2) ∧
    (explicitStopEffectVariant true true ⟨1, true, true, 0⟩).abortsSent =
      (⟨1, true, true, 0⟩ : StopState).abortsSent + 1 ∧
    (explicitStopEffectVariant true true ⟨1, true, true, 0⟩).activeSSERef = false :=
  c5_theorem ⟨1, true, true, 0⟩ rfl

/-- C5 counterexample to the claim as stated: in the primary hook, with
an open transport (ready state 1) and the submission just set to null,
the explicit-stop effect leaves the transport open (ready state still 1)
and sends zero remote-abort requests, while marking non-submitting. -/
theorem c5_counterexample :
    (explicitStopEffect true ⟨1, true, true, 0⟩).connReadyState = 1 ∧
    (explicitStopEffect true ⟨1, true, true, 0⟩).abortsSent = 0 ∧
    (explicitStopEffect true ⟨1, true, true, 0⟩).isSubmitting = false := by
  decide

theorem regGet_regSet_self (k : String) (c : Conn) :
    ∀ reg : Registry, regGet (regSet reg k c) k = some c := by
  intro reg
  induction reg with
  | nil => simp [regGet, regSet]
  | cons kc rest ih =>
    obtain ⟨k', c'⟩ := kc
    by_cases hk : k' = k
    · simp [regGet, regSet, hk]
    · simp [regGet, regSet, hk, ih]

/-- C6.  Confirmed.  When the owning view unmounts with an open transport
(navigation-away), the cleanup of the main effect does not close the
transport and leaves it registered under its conversation id in the
process-wide registry; and when a new submission targets a conversation
whose registry entry holds a still-open transport, the effect reattaches
to that transport, opens no duplicate, and leaves the registry
unchanged. -/
theorem c6_theorem (cid : String) (c : Conn) (reg : Registry)
    (nav act valid key comp resp : Bool) (tag : Nat)
    (hcid : cid ≠ "") (hopen : c.readyState = 1) :
    (mainEffectCleanup cid c reg).2 = c ∧
    regGet (mainEffectCleanup cid c reg).1 cid = some c ∧
    (regGet reg cid = some c →
      mainEffectEntry true cid reg nav act valid key comp resp tag =
        (EffectOutcome.reattached c, reg)) := by
  have hcond : (decide (cid ≠ "") && decide (c.readyState = 1)) = true := by
    simp [hcid, hopen]
  refine ⟨?_, ?_, ?_⟩
  · simp only [mainEffectCleanup]
    rw [if_pos hcond]
  · simp only [mainEffectCleanup]
    rw [if_pos hcond]
    exact regGet_regSet_self cid c reg
  · intro hg
    simp [mainEffectEntry, hg, hopen]

/-- C6 witness: a concrete open transport registered under "c1"
surviving cleanup and being reattached to by a new submission. -/
theorem c6_witness :
    (mainEffectCleanup "c1" ⟨1, 0⟩ [("c1", ⟨1, 0⟩)]).2 = (⟨1, 0⟩ : Conn) ∧
    regGet (mainEffectCleanup "c1" ⟨1, 0⟩ [("c1", ⟨1, 0⟩)]).1 "c1" = some ⟨1, 0⟩ ∧
    (regGet [("c1", ⟨1, 0⟩)] "c1" = some ⟨1, 0⟩ →
      mainEffectEntry true "c1" [("c1", ⟨1, 0⟩)] false false true false false false 5 =
        (EffectOutcome.reattached ⟨1, 0⟩, [("c1", ⟨1, 0⟩)])) :=
  c6_theorem "c1" ⟨1, 0⟩ [("c1", ⟨1, 0⟩)] false false true false false false 5
    (by decide) rfl

/-- C8.  Confirmed.  A 401 during streaming triggers exactly one
credential-refresh attempt; when the refresh yields a nonempty token the
listener installs it and retries the transport in place (no error
handler, submitting flag and registry untouched); when the refresh
throws or yields an empty token, the error handler is invoked, the
submitting state ends, and the transport is dropped from the registry;
non-401 errors attempt no refresh. -/
theorem c8_theorem (t : String) (refreshResult : Option String) (dataParses subBefore : Bool) :
    (t ≠ "" →
      sseErrorListener 401 (some t) dataParses subBefore =
        { refreshAttempts := 1, retriedStream := true, headerToken := some t,
          errorHandlerInvoked := false, isSubmitting := subBefore,
          removedFromRegistry := false }) ∧
    (sseErrorListener 401 none dataParses subBefore).refreshAttempts = 1 ∧
    (sseErrorListener 401 none dataParses subBefore).retriedStream = false ∧
    (sseErrorListener 401 none dataParses subBefore).errorHandlerInvoked = true ∧
    (sseErrorListener 401 none dataParses subBefore).isSubmitting = false ∧
    (sseErrorListener 401 none dataParses subBefore).removedFromRegistry = true ∧
    sseErrorListener 401 (some "") dataParses subBefore =
      sseErrorListener 401 none dataParses subBefore ∧
    (sseErrorListener 500 refreshResult dataParses subBefore).refreshAttempts = 0 ∧
    (sseErrorListener 500 refreshResult dataParses subBefore).errorHandlerInvoked = true := by
  refine ⟨?_, ?_, ?_, ?_, ?_, ?_, ?_, ?_, ?_⟩
  · intro ht
    simp [sseErrorListener, ht]
  · simp [sseErrorListener, errorListenerFallback]
  · simp [sseErrorListener, errorListenerFallback]
  · simp [sseErrorListener, errorListenerFallback]
  · simp [sseErrorListener, errorListenerFallback, errorHandlerRun]
  · simp [sseErrorListener, errorListenerFallback]
  · simp [sseErrorListener]
  · simp [sseErrorListener, errorListenerFallback]
  · simp [sseErrorListener, errorListenerFallback]

/-- C8 witness: a concrete 401 with a successful refresh producing an
in-place retry, alongside the concrete refresh-failure outcome. -/
theorem c8_witness :
    sseErrorListener 401 (some "tok2") true true =
      { refreshAttempts := 1, retriedStream := true, headerToken := some "tok2",
        errorHandlerInvoked := false, isSubmitting := true,
        removedFromRegistry := false } ∧
    (sseErrorListener 401 none true true).errorHandlerInvoked = true ∧
    (sseErrorListener 401 none true true).isSubmitting = false :=
  ⟨(c8_theorem ("tok2") none true true).1 (by decide),
    (c8_theorem ("tok2") none true true).2.2.2.1,
    (c8_theorem ("tok2") none true true).2.2.2.2.1⟩

end ClientSSE

